import Mathlib

/-!
Verification of the MetalliSense spectrometer simulator's broker layer.

The definitions below are shallow embeddings of the Python sources:
* `embedded_mqtt.py` — the in-process broker (`EmbeddedMQTTBroker`);
* `tcp_mqtt_broker.py` — the wire-protocol TCP broker (`SimpleTCPMQTTBroker`);
* `mqtt_server.py` — the connection supervisor (`SpectrometerMQTTServer`);
* `simulate.py` / `db.py` — the synthetic reading generator and grade lookup.

Python strings are Lean `String`s (operated on through their character
lists so that everything kernel-evaluates), byte strings are `List Nat`,
Python dicts are association lists preserving insertion order, and
randomness is an explicit stream of rational draws.
-/

namespace MetalliSense

/-! ## String helpers (the Python primitives used by the sources) -/

/-- `needle.isPrefixOf haystack` on character lists: Python `str.startswith`. -/
def pyStartsWith (s pre : String) : Bool :=
  pre.data.isPrefixOf s.data

/-- Python `'#' in pattern`. -/
def pyContainsHash (p : String) : Bool :=
  p.data.any (fun c => c = '#')

/-- Python `pattern.replace("#", "")`: removes every occurrence of `'#'`. -/
def pyStripHash (p : String) : String :=
  String.mk (p.data.filter (fun c => c ≠ '#'))

/-! ## In-process broker: topic matching (`EmbeddedMQTTBroker._topic_matches`) -/

/-- `EmbeddedMQTTBroker._topic_matches(topic, pattern)` from `embedded_mqtt.py`:
```
if pattern == "#": return True
if pattern == topic: return True
if "#" in pattern:
    prefix = pattern.replace("#", "")
    return topic.startswith(prefix)
return False
``` -/
def topicMatches (topic pattern : String) : Bool :=
  if pattern = "#" then true
  else if pattern = topic then true
  else if pyContainsHash pattern then pyStartsWith topic (pyStripHash pattern)
  else false

/-- Python `s[:-1]` for a nonempty string: drop the final character. -/
def dropLastChar (s : String) : String :=
  String.mk s.data.dropLast

/-- Python `pattern.endswith("#")`. -/
def pyEndsWithHash (p : String) : Bool :=
  match p.data.getLast? with
  | some c => c = '#'
  | none => false

/-- The matcher as the specification words it (for the refinement comparison
of claim C1): filter equals topic, or filter is the single character `#`,
or filter ends with `#` and the topic starts with the filter's characters
up to but not including the trailing `#`. -/
def claimedTopicMatches (topic pattern : String) : Bool :=
  (pattern = topic : Bool) || (pattern = "#" : Bool) ||
    (pyEndsWithHash pattern && pyStartsWith topic (dropLastChar pattern))

/-! ## In-process broker state (`EmbeddedMQTTBroker`)

Callbacks are identified by natural numbers; whether a callback raises an
exception when invoked on a `(topic, payload)` pair is an oracle
`raises : Nat → String → String → Bool` threaded through the model, so the
`try/except` structure of the source is observable. -/

/-- `MQTTMessage` from `embedded_mqtt.py`. -/
structure MQTTMessage where
  topic : String
  payload : String
  retain : Bool := false

/-- Broker state: `subscribers` (dict, filter → list of callbacks, insertion
order) and `retained_messages` (dict, topic → payload, insertion order). -/
structure EmbBroker where
  subscribers : List (String × List Nat)
  retained_messages : List (String × String)

/-- Python dict assignment `m[k] = v`: overwrite in place or append. -/
def setAssoc {α : Type} [DecidableEq α] {β : Type} :
    List (α × β) → α → β → List (α × β)
  | [], k, v => [(k, v)]
  | (k', v') :: rest, k, v =>
      if k' = k then (k, v) :: rest else (k', v') :: setAssoc rest k v

/-- Python dict lookup `m.get(k)` / `m[k]`: first (unique) binding. -/
def lookupAssoc {α : Type} [DecidableEq α] {β : Type} :
    List (α × β) → α → Option β
  | [], _ => none
  | (k', v') :: rest, k => if k' = k then some v' else lookupAssoc rest k

/-- The callback invocations `_deliver_message` performs: every callback of
every filter matching the topic is invoked, in registry order. Each
invocation is wrapped in `try/except` in the source, so a raising callback
is logged and the iteration continues — the call list does not depend on
the `raises` oracle. -/
def deliverCalls (subs : List (String × List Nat)) (topic payload : String) :
    List (Nat × String × String) :=
  (subs.filter (fun e => topicMatches topic e.1)).flatMap
    (fun e => e.2.map (fun c => (c, topic, payload)))

/-- `EmbeddedMQTTBroker._deliver_message`: store the payload when the retain
flag is set, then invoke all matching callbacks. Returns the new state, the
invocations made, and the callbacks whose exception was caught and logged.
No exception propagates (the result type has no error component). -/
def deliver_message (raises : Nat → String → String → Bool)
    (st : EmbBroker) (m : MQTTMessage) :
    EmbBroker × List (Nat × String × String) × List Nat :=
  let st' := if m.retain then
      { st with retained_messages := setAssoc st.retained_messages m.topic m.payload }
    else st
  let calls := deliverCalls st'.subscribers m.topic m.payload
  (st', calls, (calls.filter (fun c => raises c.1 c.2.1 c.2.2)).map (·.1))

/-- The retained-replay loop inside `EmbeddedMQTTBroker.subscribe`: iterate
over the retained dict, invoking the new callback on each entry whose topic
matches the filter. The loop body is NOT wrapped in `try/except`: a raising
callback stops the iteration and the exception propagates (second
component `true`). -/
def replayLoop (raises : Nat → String → String → Bool) (cb : Nat) (f : String) :
    List (String × String) → List (String × String) × Bool
  | [] => ([], false)
  | (t, p) :: rest =>
      if topicMatches t f then
        if raises cb t p then ([(t, p)], true)
        else
          let r := replayLoop raises cb f rest
          ((t, p) :: r.1, r.2)
      else replayLoop raises cb f rest

/-- The registration step of `subscribe`:
`if topic not in self.subscribers: self.subscribers[topic] = []` followed by
`self.subscribers[topic].append(callback)`. -/
def addSub : List (String × List Nat) → String → Nat → List (String × List Nat)
  | [], f, cb => [(f, [cb])]
  | (f', l) :: rest, f, cb =>
      if f' = f then (f', l ++ [cb]) :: rest else (f', l) :: addSub rest f cb

/-- Result of `EmbeddedMQTTBroker.subscribe`: the new broker state, the
retained-replay invocations made synchronously before the call returns, and
whether a callback exception propagated out of `subscribe`. -/
structure SubResult where
  broker : EmbBroker
  calls : List (String × String)
  raised : Bool

/-- `EmbeddedMQTTBroker.subscribe(topic, callback)`: register the callback
under the filter, then replay matching retained entries synchronously. The
registration happens before the replay, so it survives a replay exception. -/
def subscribe (raises : Nat → String → String → Bool)
    (st : EmbBroker) (f : String) (cb : Nat) : SubResult :=
  let subs' := addSub st.subscribers f cb
  let r := replayLoop raises cb f st.retained_messages
  { broker := { st with subscribers := subs' }, calls := r.1, raised := r.2 }

/-- `cb` is registered under filter `f` in the subscriber registry. -/
def cbRegistered (subs : List (String × List Nat)) (f : String) (cb : Nat) : Bool :=
  match lookupAssoc subs f with
  | some l => cb ∈ l
  | none => false

/-! ## Wire-protocol broker (`SimpleTCPMQTTBroker`, `tcp_mqtt_broker.py`)

Sockets are identified by natural numbers. Byte strings are `List Nat`
(each entry a byte value). Topics are keyed by their raw UTF-8 bytes:
Python keys the dicts by the decoded `str`, and strict UTF-8 decoding is
injective on the valid byte strings that reach the dicts, so the two
keyings agree. A handler returns the new broker state together with the
list of `(socket, bytes)` writes it performs, in order. -/

/-- One byte is a UTF-8 continuation byte (`0x80`–`0xBF`). -/
def isCont (b : Nat) : Bool := decide (128 ≤ b ∧ b ≤ 191)

/-- Strict UTF-8 validity of a byte string, as Python's
`bytes.decode('utf-8')` checks it (rejecting overlong forms and
surrogates). A handler's `.decode('utf-8')` raises exactly when this is
false. -/
def validUtf8 : List Nat → Bool
  | [] => true
  | b :: l =>
    if b ≤ 127 then validUtf8 l
    else
      match l with
      | [] => false
      | c1 :: l1 =>
        if 194 ≤ b ∧ b ≤ 223 then isCont c1 && validUtf8 l1
        else
          match l1 with
          | [] => false
          | c2 :: l2 =>
            if b = 224 then decide (160 ≤ c1 ∧ c1 ≤ 191) && isCont c2 && validUtf8 l2
            else if (225 ≤ b ∧ b ≤ 236) ∨ b = 238 ∨ b = 239 then
              isCont c1 && isCont c2 && validUtf8 l2
            else if b = 237 then decide (128 ≤ c1 ∧ c1 ≤ 159) && isCont c2 && validUtf8 l2
            else
              match l2 with
              | [] => false
              | c3 :: l3 =>
                if b = 240 then
                  decide (144 ≤ c1 ∧ c1 ≤ 191) && isCont c2 && isCont c3 && validUtf8 l3
                else if 241 ≤ b ∧ b ≤ 243 then
                  isCont c1 && isCont c2 && isCont c3 && validUtf8 l3
                else if b = 244 then
                  decide (128 ≤ c1 ∧ c1 ≤ 143) && isCont c2 && isCont c3 && validUtf8 l3
                else false

/-- UTF-8 bytes of an ASCII string (used for concrete instances). -/
def asciiBytes (s : String) : List Nat := s.data.map Char.toNat

/-- `struct.unpack('>H', data[i:i+2])`: big-endian 16-bit read. (Only used
under the source's length guards, which make the reads in bounds.) -/
def byte16 (data : List Nat) (i : Nat) : Nat :=
  (data.getD i 0) * 256 + data.getD (i + 1) 0

/-- `struct.pack('>H', n)` for `n ≤ 65535`. -/
def encU16 (n : Nat) : List Nat := [n / 256 % 256, n % 256]

/-- `SimpleTCPMQTTBroker` state: `clients` (dict keyed by socket — the
auxiliary address/id values play no role in the claims), `subscriptions`
(dict: topic bytes → list of sockets), `retained_messages` (dict: topic
bytes → payload bytes). -/
structure TcpState where
  clients : List Nat
  subscriptions : List (List Nat × List Nat)
  retained : List (List Nat × List Nat)
  deriving DecidableEq

/-- `SimpleTCPMQTTBroker._handle_publish`: under the guards
`len(data) > 4` and `len(data) > 4 + topic_length`, decode topic and
payload (any `UnicodeDecodeError` is caught by the handler's own
`try/except`, leaving the state untouched), store the raw payload bytes in
`retained_messages[topic]` unconditionally, then send the original frame
verbatim to each socket in `subscriptions[topic]` (exact key) that is not
the sender and is still a connected client. -/
def handlePublish (st : TcpState) (sender : Nat) (data : List Nat) :
    TcpState × List (Nat × List Nat) :=
  if 4 < data.length then
    let tl := byte16 data 2
    if 4 + tl < data.length then
      let topicB := (data.drop 4).take tl
      let payloadB := data.drop (4 + tl)
      if validUtf8 topicB && validUtf8 payloadB then
        let st' := { st with retained := setAssoc st.retained topicB payloadB }
        let sends :=
          match lookupAssoc st.subscriptions topicB with
          | some subs =>
              (subs.filter (fun s => decide (s ≠ sender ∧ s ∈ st.clients))).map
                (fun s => (s, data))
          | none => []
        (st', sends)
      else (st, [])
    else (st, [])
  else (st, [])

/-- Registration step of `_handle_subscribe`:
`if topic not in subscriptions: subscriptions[topic] = []` then
`if client_socket not in subscriptions[topic]: append`. -/
def addSubscriber : List (List Nat × List Nat) → List Nat → Nat →
    List (List Nat × List Nat)
  | [], topic, s => [(topic, [s])]
  | (t, l) :: rest, topic, s =>
      if t = topic then (t, if s ∈ l then l else l ++ [s]) :: rest
      else (t, l) :: addSubscriber rest topic s

/-- `SimpleTCPMQTTBroker._handle_subscribe`: under the guards
`len(data) > 6` and `len(data) > 6 + topic_length`, decode the topic
(decode failure is caught in the handler, state untouched), register the
sender under the exact topic, send the SUBACK, and, if a retained entry
exists for the exact topic, send one synthesized publish frame — unless
the one-byte remaining-length field of `struct.pack` overflows (> 255), in
which case the `struct.error` is caught after the SUBACK was already sent
and the registration already made. -/
def handleSubscribe (st : TcpState) (sender : Nat) (data : List Nat) :
    TcpState × List (Nat × List Nat) :=
  if 6 < data.length then
    let tl := byte16 data 4
    if 6 + tl < data.length then
      let topicB := (data.drop 6).take tl
      if validUtf8 topicB then
        let st' := { st with subscriptions := addSubscriber st.subscriptions topicB sender }
        let suback := [0x90, 0x03] ++ encU16 (byte16 data 2) ++ [0x00]
        match lookupAssoc st.retained topicB with
        | some rp =>
            if 2 + topicB.length + rp.length ≤ 255 then
              (st', [(sender, suback),
                (sender, [0x30, 2 + topicB.length + rp.length] ++
                  encU16 topicB.length ++ topicB ++ rp)])
            else (st', [(sender, suback)])
        | none => (st', [(sender, suback)])
      else (st, [])
    else (st, [])
  else (st, [])

/-- `SimpleTCPMQTTBroker._disconnect_client`: if the socket is a known
client, delete it from the client dict and remove it (first occurrence,
`list.remove`) from every subscription list; finally the socket is closed.
All teardown paths (`0xE0` disconnect frame, end-of-stream, read failure)
funnel into this function. -/
def disconnectClient (st : TcpState) (s : Nat) : TcpState :=
  if s ∈ st.clients then
    { clients := st.clients.erase s
      subscriptions := st.subscriptions.map
        (fun e => (e.1, if s ∈ e.2 then e.2.erase s else e.2))
      retained := st.retained }
  else st

/-- `SimpleTCPMQTTBroker._process_mqtt_packet`: dispatch on the high nibble
of the first byte (1 CONNECT, 3 PUBLISH, 8 SUBSCRIBE, 12 PINGREQ,
14 DISCONNECT). -/
def processPacket (st : TcpState) (sender : Nat) (data : List Nat) :
    TcpState × List (Nat × List Nat) :=
  match data with
  | [] => (st, [])
  | b :: _ =>
    let pt := b / 16 % 16
    if pt = 1 then (st, [(sender, [0x20, 0x02, 0x00, 0x00])])
    else if pt = 3 then handlePublish st sender data
    else if pt = 8 then handleSubscribe st sender data
    else if pt = 12 then (st, [(sender, [0xD0, 0x00])])
    else if pt = 14 then (disconnectClient st sender, [])
    else (st, [])

/-- `SimpleTCPMQTTBroker.publish` (server-side injection): if the topic has
a subscription list, build the publish frame (a `struct.error` on the
one-byte remaining-length field is caught by the method's `try/except` and
reported as `False`, before anything is stored), store the payload as
retained, and send the frame to every subscriber that is still a client;
returns `True`. With no subscription list for the topic, nothing happens
and the method returns `False`. Send failures are swallowed per-socket, so
the call never raises. -/
def serverPublish (st : TcpState) (topicB payloadB : List Nat) :
    TcpState × List (Nat × List Nat) × Bool :=
  match lookupAssoc st.subscriptions topicB with
  | none => (st, [], false)
  | some subs =>
      if 2 + topicB.length + payloadB.length ≤ 255 then
        let packet := [0x30, 2 + topicB.length + payloadB.length] ++
          encU16 topicB.length ++ topicB ++ payloadB
        let st' := { st with retained := setAssoc st.retained topicB payloadB }
        (st', (subs.filter (fun s => decide (s ∈ st.clients))).map
          (fun s => (s, packet)), true)
      else (st, [], false)

/-- Each subscription list holds the socket at most once — the invariant
`_handle_subscribe` maintains by its `not in` check before appending. -/
def subOnce (st : TcpState) (s : Nat) : Prop :=
  ∀ e ∈ st.subscriptions, e.2.count s ≤ 1

/-- The topic slice `data[4:4+topic_length]` of a PUBLISH frame. -/
def pubTopic (data : List Nat) : List Nat := (data.drop 4).take (byte16 data 2)

/-- The payload slice `data[4+topic_length:]` of a PUBLISH frame. -/
def pubPayload (data : List Nat) : List Nat := data.drop (4 + byte16 data 2)

/-- The topic slice `data[6:6+topic_length]` of a SUBSCRIBE frame. -/
def subTopic (data : List Nat) : List Nat := (data.drop 6).take (byte16 data 4)

/-- Concrete broker state for the C3 counterexample: clients 1 and 2,
session 2 subscribed with the wildcard filter `"sensor/#"`. -/
def tcpC3State : TcpState := ⟨[1, 2], [(asciiBytes "sensor/#", [2])], []⟩

/-- A well-formed PUBLISH frame from the wire: topic `"sensor/a"`,
payload `"X"` (remaining-length byte 11). -/
def c3Frame : List Nat := [0x30, 11, 0x00, 0x08] ++ asciiBytes "sensor/a" ++ [0x58]

/-- Concrete broker state for the C4 counterexample: one client (socket 7)
subscribed to `"t"`. -/
def tcpC4State : TcpState := ⟨[7], [(asciiBytes "t", [7])], []⟩

/-- A PUBLISH frame whose topic byte `0xFF` is not valid UTF-8, so
`topic.decode('utf-8')` raises inside `_handle_publish`. -/
def c4BadFrame : List Nat := [0x30, 3, 0x00, 0x01, 0xFF, 0x41]

/-! ## Connection supervisor (`SpectrometerMQTTServer`, `mqtt_server.py`) -/

/-- The three backends of the fallback chain, in priority order. -/
inductive Backend
  | wire
  | remote
  | inproc
  deriving DecidableEq

/-- The environment `start` runs in: module availability flags (in this
repository both fallback modules import successfully — they depend only on
the standard library — but the flags are kept, as the source tests them)
and the outcome each `_try_*` helper would report. -/
structure BackendEnv where
  tcpAvailable : Bool
  embeddedAvailable : Bool
  tcpOk : Bool
  externalOk : Bool
  embeddedOk : Bool

/-- `_try_tcp_broker`: returns `False` immediately when the module is
unavailable, otherwise reports the start-and-connect outcome. -/
def tryTcpBroker (env : BackendEnv) : Bool := env.tcpAvailable && env.tcpOk

/-- `_try_external_broker`: connect as a plain client to the configured
address. -/
def tryExternalBroker (env : BackendEnv) : Bool := env.externalOk

/-- `_try_embedded_broker`: attach to the in-process broker. -/
def tryEmbeddedBroker (env : BackendEnv) : Bool := env.embeddedOk

/-- `SpectrometerMQTTServer.start` (fallback chain only):
```
success = self._try_tcp_broker()
if not success: success = self._try_external_broker()
if not success and EMBEDDED_AVAILABLE: success = self._try_embedded_broker()
return success  (after setting running and generating an initial reading)
```
Returns the overall outcome and the list of backends attempted, in order. -/
def serverStart (env : BackendEnv) : Bool × List Backend :=
  if tryTcpBroker env then (true, [.wire])
  else if tryExternalBroker env then (true, [.wire, .remote])
  else if env.embeddedAvailable then
    (tryEmbeddedBroker env, [.wire, .remote, .inproc])
  else (false, [.wire, .remote])

/-- The configuration state `on_message` manipulates (the remaining fields
`temperature` / `latest_reading` are written only by `generate_reading`,
which is outside the config branches and catches its own exceptions). -/
structure ServerConfig where
  metal_grade : String
  incorrect_elements_count : Int
  deriving DecidableEq

/-- `self.topics['config_metal_grade']`. -/
def topicConfigMetalGrade : String := "spectrometer/config/metal_grade"

/-- `self.topics['config_incorrect_elements']`. -/
def topicConfigIncorrectElements : String := "spectrometer/config/incorrect_elements"

/-- Python whitespace stripped by `int(str)` (ASCII part). -/
def isPySpace (c : Char) : Bool :=
  decide (c = ' ' ∨ c = '\t' ∨ c = '\n' ∨ c = '\r' ∨
    c = Char.ofNat 11 ∨ c = Char.ofNat 12)

/-- `str.strip()` of the surrounding whitespace. -/
def pyStrip (cs : List Char) : List Char :=
  ((cs.dropWhile isPySpace).reverse.dropWhile isPySpace).reverse

/-- ASCII decimal digit. -/
def isDigitCh (c : Char) : Bool := decide ('0' ≤ c ∧ c ≤ '9')

/-- Tail of a digit group: digits, with single underscores allowed only
between digits. -/
def digitsTailOk : List Char → Bool
  | [] => true
  | '_' :: rest =>
      match rest with
      | d :: r => isDigitCh d && digitsTailOk r
      | [] => false
  | c :: rest => isDigitCh c && digitsTailOk rest

/-- A nonempty digit group (first character a digit). -/
def digitsOkCore : List Char → Bool
  | [] => false
  | c :: rest => isDigitCh c && digitsTailOk rest

/-- Numeric value of a digit group (underscores ignored). -/
def digitsVal (cs : List Char) : Nat :=
  (cs.filter (fun c => c ≠ '_')).foldl (fun acc c => acc * 10 + (c.toNat - 48)) 0

/-- Modelled from the Python language reference: the built-in `int(str)`
called by `on_message` (not part of this repository's sources). It strips
surrounding whitespace, accepts an optional sign followed by decimal
digits (underscores permitted between digits), and raises `ValueError`
(`none` here) on anything else. -/
def pyInt (s : String) : Option Int :=
  match pyStrip s.data with
  | '+' :: rest => if digitsOkCore rest then some (digitsVal rest : Int) else none
  | '-' :: rest => if digitsOkCore rest then some (-(digitsVal rest : Int)) else none
  | rest => if digitsOkCore rest then some (digitsVal rest : Int) else none

/-- `SpectrometerMQTTServer.on_message` restricted to the configuration
fields: the metal-grade topic stores the payload verbatim; the
incorrect-elements topic stores `int(payload)`, and when `int` raises the
outer `try/except` logs the error and every field keeps its previous
value; the control topic (and any other) leaves the configuration alone. -/
def on_message (st : ServerConfig) (topic payload : String) : ServerConfig :=
  if topic = topicConfigMetalGrade then { st with metal_grade := payload }
  else if topic = topicConfigIncorrectElements then
    match pyInt payload with
    | some n => { st with incorrect_elements_count := n }
    | none => st
  else st

/-! ## Reading generator (`simulate.py`) and grade lookup (`db.py`)

Numeric values are rationals; `round(x, 4)` is modelled exactly (round
half to even). Randomness is an explicit stream of rational draws in
`[0,1]`: each call into the `random` module consumes one draw (clamped
into `[0,1]`, the range `random.random`'s outputs actually have), so every
choice of stream corresponds to a possible execution. -/

/-- A stream of random draws. -/
abbrev RGen := List ℚ

/-- Consume one draw (an exhausted stream keeps yielding 0). -/
def nextDraw : RGen → ℚ × RGen
  | [] => (0, [])
  | u :: g => (u, g)

/-- Clamp a draw into `[0, 1]`. -/
def clamp01 (u : ℚ) : ℚ := max 0 (min 1 u)

/-- `random.uniform(a, b)`: a point of `[a, b]` selected by the stream. -/
def pyUniform (a b : ℚ) (g : RGen) : ℚ × RGen :=
  (a + (b - a) * clamp01 (nextDraw g).1, (nextDraw g).2)

/-- Round to the nearest integer, half to even — Python `round`'s rule. -/
def roundHalfEven (x : ℚ) : Int :=
  let f := Rat.floor x
  let r := x - f
  if r < 1/2 then f
  else if 1/2 < r then f + 1
  else if f % 2 = 0 then f else f + 1

/-- Python `round(x, 4)`. -/
def roundQ4 (x : ℚ) : ℚ := (roundHalfEven (x * 10000) : ℚ) / 10000

/-- `simulate.inject_noise(value, noise_level=0.005)`:
`round(value + random.uniform(-0.005, 0.005), 4)`. -/
def inject_noise (v : ℚ) (g : RGen) : ℚ × RGen :=
  (roundQ4 (v + (pyUniform (-(1/200)) (1/200) g).1), (pyUniform (-(1/200)) (1/200) g).2)

/-- `simulate.inject_anomaly(value, chance=0.05, spike_factor=2.0,
max_limit=1.0)`: with probability 0.05 replace the value by
`min(round(value*2, 4), 1.0)`. -/
def inject_anomaly (v : ℚ) (g : RGen) : ℚ × RGen :=
  (if clamp01 (nextDraw g).1 < 1/20 then min (roundQ4 (v * 2)) 1 else v,
    (nextDraw g).2)

/-- `simulate.generate_within_range(min_val, max_val)`:
`round(inject_noise(random.uniform(min_val, max_val)), 4)`. The noise draw
can push the value slightly (up to 0.005) outside `[min_val, max_val]`. -/
def generate_within_range (mn mx : ℚ) (g : RGen) : ℚ × RGen :=
  let v := (pyUniform mn mx g).1
  let g1 := (pyUniform mn mx g).2
  (roundQ4 (inject_noise v g1).1, (inject_noise v g1).2)

/-- `simulate.generate_out_of_range(min_val, max_val, deviation=0.15)`:
pick a side (`random.choice(['low','high'])`, the first draw), then a
uniform point strictly outside the range on that side, plus noise. -/
def generate_out_of_range (mn mx : ℚ) (g : RGen) : ℚ × RGen :=
  let c := (nextDraw g).1
  let g1 := (nextDraw g).2
  let v := if clamp01 c < 1/2 then (pyUniform (mn - 3/20) (mn - 1/100) g1).1
           else (pyUniform (mx + 1/100) (mx + 3/20) g1).1
  let g2 := if clamp01 c < 1/2 then (pyUniform (mn - 3/20) (mn - 1/100) g1).2
            else (pyUniform (mx + 1/100) (mx + 3/20) g1).2
  (roundQ4 (inject_noise v g2).1, (inject_noise v g2).2)

/-- A document of the `metal_grade_specs` collection: its `metal_grade`
field and, when the field is present, its `composition_range` mapping
element → (min, max). -/
structure MgDoc where
  metal_grade : String
  composition_range : Option (List (String × ℚ × ℚ))

/-- The failures `simulate_reading` can raise. Both are Python
`ValueError`s: `notFound` is the grade-lookup failure (the class the
specification names `NotFoundError`), `sampleError` the `random.sample`
bounds failure. -/
inductive SimErr
  | notFound (grade : String)
  | sampleError
  deriving DecidableEq

/-- `db.get_metal_grade_spec(grade)`:
`find_one({"metal_grade": grade})`, then return `doc["composition_range"]`
when the document exists and has the field, else
`raise ValueError("No composition range found ...")`. -/
def get_metal_grade_spec (db : List MgDoc) (grade : String) :
    Except SimErr (List (String × ℚ × ℚ)) :=
  match db.find? (fun d => d.metal_grade == grade) with
  | some d =>
      match d.composition_range with
      | some p => Except.ok p
      | none => Except.error (.notFound grade)
  | none => Except.error (.notFound grade)

/-- The selection loop of `random.sample` (called with `0 ≤ k ≤ n`): each
step consumes a draw, picks the corresponding index of the remaining pool,
removes that element and recurses — yielding `k` distinct elements. -/
def sampleLoop : Nat → List String → RGen → List String × RGen
  | 0, _, g => ([], g)
  | _ + 1, [], g => ([], g)
  | k + 1, p0 :: pool, g =>
      let u := (nextDraw g).1
      let g1 := (nextDraw g).2
      let i := min (Int.toNat (Rat.floor (clamp01 u * ((p0 :: pool).length : ℚ))))
        ((p0 :: pool).length - 1)
      let r := sampleLoop k ((p0 :: pool).eraseIdx i) g1
      ((p0 :: pool).getD i p0 :: r.1, r.2)

/-- Modelled from the Python standard library (the `random.sample` the
source calls is not repository code): it raises
`ValueError("Sample larger than population or is negative")` when
`k < 0` or `k > len(population)`, and otherwise returns `k` distinct
elements of the population chosen by the generator. -/
def pySample (pool : List String) (k : Int) (g : RGen) :
    Except SimErr (List String × RGen) :=
  if k < 0 ∨ (pool.length : Int) < k then Except.error .sampleError
  else Except.ok (sampleLoop k.toNat pool g)

/-- A reading record: the element → value mapping (in profile order) plus
the `"timestamp"` entry. -/
structure Reading where
  values : List (String × ℚ)
  timestamp : String
  deriving DecidableEq

/-- `['S', 'P', 'Pb', 'Mn']` — the elements eligible for anomaly spikes. -/
def anomalyElements : List String := ["S", "P", "Pb", "Mn"]

/-- The per-element body of `simulate_reading`'s loop: sampled ("incorrect")
elements go through `generate_out_of_range` (plus `inject_anomaly` for the
four listed elements), the others through `generate_within_range`. -/
def elementValue (incorrect : List String) (element : String) (mn mx : ℚ)
    (g : RGen) : ℚ × RGen :=
  if element ∈ incorrect then
    let v0 := (generate_out_of_range mn mx g).1
    let g1 := (generate_out_of_range mn mx g).2
    if element ∈ anomalyElements then inject_anomaly v0 g1 else (v0, g1)
  else generate_within_range mn mx g

/-- `simulate.simulate_reading(grade, incorrect_elements_count)`: look up
the grade's composition profile (an unknown grade raises before anything
is built), draw the incorrect-element sample (a count outside `[0, n]`
raises before anything is built), then build the record element by
element, rounding every stored value to 4 decimals, and attach the
timestamp (`datetime.now()`, passed in as `now`). -/
def simulate_reading (db : List MgDoc) (now : String) (grade : String)
    (k : Int) (g : RGen) : Except SimErr Reading := do
  let profile ← get_metal_grade_spec db grade
  let s ← pySample (profile.map (·.1)) k g
  let fin := profile.foldl
    (fun (acc : List (String × ℚ) × RGen) e =>
      let r := elementValue s.1 e.1 e.2.1 e.2.2 acc.2
      (acc.1 ++ [(e.1, roundQ4 r.1)], r.2))
    ([], s.2)
  return { values := fin.1, timestamp := now }

end MetalliSense

namespace MetalliSense

/-- C1 counterexample: for topic `"ab"` and filter `"a#b"` the code's matcher
returns `true` (it strips every `'#'` from the filter and does a prefix test),
while the claimed rule returns `false` (the filter does not end with `'#'`,
is not `"#"`, and differs from the topic). -/
theorem c1_counterexample :
    topicMatches "ab" "a#b" = true ∧ claimedTopicMatches "ab" "a#b" = false := by
  constructor <;> decide

/-- C1 (amended): `_topic_matches` returns true for a topic and a filter
exactly when (a) the filter equals the topic, or (b) the filter is the single
character `#`, or (c) the filter contains `#` anywhere and the topic starts
with the filter's characters after removing every `#`; in particular
`"sensor/#"` matches `"sensor/temp"` and `"sensor/a/b"` but not `"sensor"`. -/
theorem c1_topic_matching :
    (∀ t p, topicMatches t p = true ↔
      (p = t ∨ p = "#" ∨
        (pyContainsHash p = true ∧ pyStartsWith t (pyStripHash p) = true))) ∧
    topicMatches "sensor/temp" "sensor/#" = true ∧
    topicMatches "sensor/a/b" "sensor/#" = true ∧
    topicMatches "sensor" "sensor/#" = false := by
  refine ⟨fun t p => ?_, by decide, by decide, by decide⟩
  unfold topicMatches
  split_ifs with h1 h2 h3 <;> simp_all

/-- `replayLoop` under a never-raising callback: every matching retained
entry is replayed, in order, and no exception propagates. -/
theorem replayLoop_no_raise (raises : Nat → String → String → Bool)
    (cb : Nat) (f : String) (hnr : ∀ t p, raises cb t p = false) :
    ∀ l, replayLoop raises cb f l = (l.filter (fun e => topicMatches e.1 f), false) := by
  intro l
  induction l with
  | nil => rfl
  | cons e rest ih =>
      obtain ⟨t, p⟩ := e
      by_cases h : topicMatches t f = true <;>
        simp [replayLoop, hnr, h, ih, List.filter_cons]

/-- C2: if a retained entry `(T, X)` is stored and the filter `F` matches `T`,
then `subscribe(F, cb)` invokes `cb` with `(T, X)` as part of the replay the
call performs synchronously before returning (for a callback that does not
itself raise). Publishes enqueued afterwards are dispatched by the broker
loop only after `subscribe` has returned, so the retained state is observed
first. -/
theorem c2_retained_replay (raises : Nat → String → String → Bool)
    (st : EmbBroker) (F : String) (cb : Nat) (T X : String)
    (hnr : ∀ t p, raises cb t p = false)
    (hret : (T, X) ∈ st.retained_messages)
    (hm : topicMatches T F = true) :
    (T, X) ∈ (subscribe raises st F cb).calls := by
  have h := replayLoop_no_raise raises cb F hnr st.retained_messages
  simp only [subscribe, h]
  exact List.mem_filter.mpr ⟨hret, hm⟩

/-- C2 witness: a concrete broker with retained entry `("a/b", "X")` and a
subscribe on the exact filter `"a/b"` replays that entry. -/
theorem c2_retained_replay_witness :
    ("a/b", "X") ∈
      (subscribe (fun _ _ _ => false) ⟨[], [("a/b", "X")]⟩ "a/b" 0).calls :=
  c2_retained_replay _ _ _ _ _ _ (fun _ _ => rfl) (by decide) (by decide)

/-- Registration always lands in the subscriber registry. -/
theorem cbRegistered_addSub (subs : List (String × List Nat)) (f : String) (cb : Nat) :
    cbRegistered (addSub subs f cb) f cb = true := by
  induction subs with
  | nil => simp [addSub, cbRegistered, lookupAssoc]
  | cons e rest ih =>
      obtain ⟨f', l⟩ := e
      by_cases h : f' = f
      · simp [addSub, cbRegistered, lookupAssoc, h]
      · simp only [cbRegistered] at ih
        simp [addSub, cbRegistered, lookupAssoc, h, ih]

/-- The replay loop propagates an exception exactly when some retained entry
matches the filter and the callback raises on it. -/
theorem replayLoop_raised_iff (raises : Nat → String → String → Bool)
    (cb : Nat) (f : String) :
    ∀ l, (replayLoop raises cb f l).2 = true ↔
      ∃ e ∈ l, topicMatches e.1 f = true ∧ raises cb e.1 e.2 = true := by
  intro l
  induction l with
  | nil => simp [replayLoop]
  | cons e rest ih =>
      obtain ⟨t, p⟩ := e
      by_cases hm : topicMatches t f = true
      · by_cases hr : raises cb t p = true
        · simp [replayLoop, hm, hr]
        · simp [replayLoop, hm, hr, ih]
      · simp [replayLoop, hm, ih]

/-- The replay loop's calls, when the retained dict splits as
`l1 ++ e :: l2` with `e` the first matching entry the callback raises on:
the matching entries of `l1` are called, then `e` is called (and raises),
and nothing of `l2` is reached. -/
theorem replayLoop_truncates (raises : Nat → String → String → Bool)
    (cb : Nat) (f : String) :
    ∀ l1 (e : String × String) l2,
      topicMatches e.1 f = true → raises cb e.1 e.2 = true →
      (∀ e' ∈ l1, topicMatches e'.1 f = true → raises cb e'.1 e'.2 = false) →
      replayLoop raises cb f (l1 ++ e :: l2) =
        ((l1.filter (fun x => topicMatches x.1 f)) ++ [e], true) := by
  intro l1
  induction l1 with
  | nil =>
      intro e l2 hm hr _
      obtain ⟨t, p⟩ := e
      simp [replayLoop, hm, hr]
  | cons a rest ih =>
      intro e l2 hm hr hfst
      obtain ⟨t, p⟩ := a
      by_cases h : topicMatches t f = true
      · have hnr : raises cb t p = false := hfst (t, p) (by simp) h
        simp [replayLoop, h, hnr, List.filter_cons,
          ih e l2 hm hr (fun e' he' => hfst e' (by simp [he']))]
      · simp [replayLoop, h, List.filter_cons,
          ih e l2 hm hr (fun e' he' => hfst e' (by simp [he']))]

/-- C9: exception isolation in the in-process broker is asymmetric.
(1) During dispatch of a published message, every callback of every matching
filter is invoked regardless of which callbacks raise (each invocation is
wrapped in `try/except`), and a raising callback is merely logged.
(2) During retained replay inside `subscribe`, the registration itself
always survives, but (3) a callback exception propagates out of the
`subscribe` call exactly when the callback raises on some matching retained
entry, and (4) replay stops at the first such entry: retained entries after
it are not replayed. -/
theorem c9_exception_asymmetry :
    (∀ (raises : Nat → String → String → Bool) (st : EmbBroker) (m : MQTTMessage)
        (f : String) (cbs : List Nat) (cb : Nat),
        (f, cbs) ∈ st.subscribers → topicMatches m.topic f = true → cb ∈ cbs →
        (cb, m.topic, m.payload) ∈ (deliver_message raises st m).2.1 ∧
          (raises cb m.topic m.payload = true →
            cb ∈ (deliver_message raises st m).2.2)) ∧
    (∀ (raises : Nat → String → String → Bool) (st : EmbBroker) (f : String) (cb : Nat),
        cbRegistered (subscribe raises st f cb).broker.subscribers f cb = true) ∧
    (∀ (raises : Nat → String → String → Bool) (st : EmbBroker) (f : String) (cb : Nat),
        (subscribe raises st f cb).raised = true ↔
          ∃ e ∈ st.retained_messages,
            topicMatches e.1 f = true ∧ raises cb e.1 e.2 = true) ∧
    (∀ (raises : Nat → String → String → Bool) (st : EmbBroker) (f : String) (cb : Nat)
        (l1 : List (String × String)) (e : String × String) (l2 : List (String × String)),
        st.retained_messages = l1 ++ e :: l2 →
        topicMatches e.1 f = true → raises cb e.1 e.2 = true →
        (∀ e' ∈ l1, topicMatches e'.1 f = true → raises cb e'.1 e'.2 = false) →
        (subscribe raises st f cb).calls =
          (l1.filter (fun x => topicMatches x.1 f)) ++ [e]) := by
  refine ⟨?_, ?_, ?_, ?_⟩
  · intro raises st m f cbs cb hsub hm hcb
    have hcalls : (cb, m.topic, m.payload) ∈ (deliver_message raises st m).2.1 := by
      have hsubs' : (deliver_message raises st m).2.1 =
          deliverCalls st.subscribers m.topic m.payload := by
        simp only [deliver_message]
        split <;> rfl
      rw [hsubs']
      simp only [deliverCalls, List.mem_flatMap]
      exact ⟨(f, cbs), List.mem_filter.mpr ⟨hsub, hm⟩,
        List.mem_map.mpr ⟨cb, hcb, rfl⟩⟩
    refine ⟨hcalls, fun hr => ?_⟩
    simp only [deliver_message] at hcalls ⊢
    exact List.mem_map.mpr ⟨(cb, m.topic, m.payload),
      List.mem_filter.mpr ⟨hcalls, by simpa using hr⟩, rfl⟩
  · intro raises st f cb
    exact cbRegistered_addSub st.subscribers f cb
  · intro raises st f cb
    simpa [subscribe] using replayLoop_raised_iff raises cb f st.retained_messages
  · intro raises st f cb l1 e l2 hsplit hm hr hfst
    simp [subscribe, hsplit, replayLoop_truncates raises cb f l1 e l2 hm hr hfst]

/-- C9 witness: broker with one subscriber on `"#"` (callback 5, which
raises on everything) plus retained entries `("a","1")`, `("b","2")`;
dispatch still calls callback 5 and logs it, while `subscribe` of callback 5
on `"#"` raises after replaying only `("a","1")`, yet leaves callback 5
registered. -/
theorem c9_exception_asymmetry_witness :
    ((5, "a", "1") ∈
        (deliver_message (fun _ _ _ => true)
          ⟨[("#", [5])], [("a", "1"), ("b", "2")]⟩ ⟨"a", "1", false⟩).2.1) ∧
    cbRegistered
      (subscribe (fun _ _ _ => true)
        ⟨[], [("a", "1"), ("b", "2")]⟩ "#" 5).broker.subscribers "#" 5 = true ∧
    (subscribe (fun _ _ _ => true)
        ⟨[], [("a", "1"), ("b", "2")]⟩ "#" 5).raised = true ∧
    (subscribe (fun _ _ _ => true)
        ⟨[], [("a", "1"), ("b", "2")]⟩ "#" 5).calls = [("a", "1")] := by
  obtain ⟨h1, h2, h3, h4⟩ := c9_exception_asymmetry
  refine ⟨(h1 (fun _ _ _ => true) ⟨[("#", [5])], [("a", "1"), ("b", "2")]⟩
      ⟨"a", "1", false⟩ "#" [5] 5 (by decide) (by decide) (by decide)).1,
    h2 (fun _ _ _ => true) ⟨[], [("a", "1"), ("b", "2")]⟩ "#" 5,
    (h3 (fun _ _ _ => true) ⟨[], [("a", "1"), ("b", "2")]⟩ "#" 5).mpr
      ⟨("a", "1"), by decide, by decide, rfl⟩,
    ?_⟩
  have := h4 (fun _ _ _ => true) ⟨[], [("a", "1"), ("b", "2")]⟩ "#" 5
      [] ("a", "1") [("b", "2")] rfl (by decide) rfl (by simp)
  simpa using this

/-- A key written by `setAssoc` is read back. -/
theorem lookupAssoc_setAssoc_self {α : Type} [DecidableEq α] {β : Type}
    (m : List (α × β)) (k : α) (v : β) :
    lookupAssoc (setAssoc m k v) k = some v := by
  induction m with
  | nil => simp [setAssoc, lookupAssoc]
  | cons e rest ih =>
      obtain ⟨k', v'⟩ := e
      by_cases h : k' = k <;> simp [setAssoc, lookupAssoc, h, ih]

/-- Every socket `serverPublish` writes to is a connected client. -/
theorem serverPublish_sends_clients (st : TcpState) (t p : List Nat)
    (x : Nat × List Nat) (hx : x ∈ (serverPublish st t p).2.1) :
    x.1 ∈ st.clients := by
  unfold serverPublish at hx
  split at hx
  · simp at hx
  · split at hx
    · simp only [List.mem_map, List.mem_filter] at hx
      obtain ⟨s, ⟨_, hs⟩, rfl⟩ := hx
      simpa using hs
    · simp at hx

/-- Every socket `_handle_publish` forwards to is a connected client. -/
theorem handlePublish_sends_clients (st : TcpState) (sender : Nat)
    (d : List Nat) (x : Nat × List Nat)
    (hx : x ∈ (handlePublish st sender d).2) : x.1 ∈ st.clients := by
  simp only [handlePublish] at hx
  split at hx
  · split at hx
    · split at hx
      · split at hx
        · simp only [List.mem_map, List.mem_filter] at hx
          obtain ⟨s, ⟨_, hs⟩, rfl⟩ := hx
          simp only [decide_eq_true_eq] at hs
          exact hs.2
        · simp at hx
      · simp at hx
    · simp at hx
  · simp at hx

/-- C3 counterexample: the wire broker forwards by exact topic-string
equality only. With client 2 subscribed under the wildcard filter
`"sensor/#"` (which matches topic `"sensor/a"` under the advertised
matching rule) and client 1 publishing a well-formed frame for topic
`"sensor/a"`, the broker forwards to nobody. -/
theorem c3_counterexample :
    topicMatches "sensor/a" "sensor/#" = true ∧
    (asciiBytes "sensor/#", [2]) ∈ tcpC3State.subscriptions ∧
    (2 : Nat) ∈ tcpC3State.clients ∧ (2 : Nat) ≠ 1 ∧
    validUtf8 (pubTopic c3Frame) = true ∧ validUtf8 (pubPayload c3Frame) = true ∧
    4 < c3Frame.length ∧ 4 + byte16 c3Frame 2 < c3Frame.length ∧
    (handlePublish tcpC3State 1 c3Frame).2 = [] := by
  decide

/-- C3 (amended): for every well-formed PUBLISH frame (length guards hold
and topic and payload decode), the broker stores `(topic, payload)` in the
retained store unconditionally — overwriting any previous entry, with no
retain flag consulted — and forwards the identical raw frame, byte for
byte, to exactly the connected sessions subscribed to the *exact* topic
string, never to the sender; sessions subscribed under wildcard filters
are not forwarded to (no wildcard matching is evaluated on this path). -/
theorem c3_wire_publish (st : TcpState) (sender : Nat) (data : List Nat)
    (h4 : 4 < data.length)
    (hlen : 4 + byte16 data 2 < data.length)
    (htv : validUtf8 (pubTopic data) = true)
    (hpv : validUtf8 (pubPayload data) = true) :
    lookupAssoc (handlePublish st sender data).1.retained (pubTopic data) =
      some (pubPayload data) ∧
    (handlePublish st sender data).1.clients = st.clients ∧
    (handlePublish st sender data).1.subscriptions = st.subscriptions ∧
    (∀ s frame, (s, frame) ∈ (handlePublish st sender data).2 ↔
      (frame = data ∧ s ≠ sender ∧ s ∈ st.clients ∧
        ∃ subs, lookupAssoc st.subscriptions (pubTopic data) = some subs ∧
          s ∈ subs)) := by
  have hval : (validUtf8 ((data.drop 4).take (byte16 data 2)) &&
      validUtf8 (data.drop (4 + byte16 data 2))) = true := by
    rw [show (data.drop 4).take (byte16 data 2) = pubTopic data from rfl,
      show data.drop (4 + byte16 data 2) = pubPayload data from rfl, htv, hpv]
    rfl
  simp only [handlePublish, if_pos h4, if_pos hlen, hval, if_true, pubTopic, pubPayload]
  refine ⟨lookupAssoc_setAssoc_self _ _ _, by trivial, by trivial, fun s frame => ?_⟩
  cases hl : lookupAssoc st.subscriptions ((data.drop 4).take (byte16 data 2)) with
  | none =>
      simp only [List.not_mem_nil, false_iff]
      rintro ⟨-, -, -, subs, hsubs, -⟩
      simp [hl] at hsubs
  | some subs =>
      simp only [List.mem_map, List.mem_filter, decide_eq_true_eq, Prod.mk.injEq]
      constructor
      · rintro ⟨a, ⟨ha, hne, hcl⟩, ha1, ha2⟩
        subst ha1; subst ha2
        exact ⟨rfl, hne, hcl, subs, rfl, ha⟩
      · rintro ⟨rfl, hne, hcl, subs', hsubs', hs⟩
        cases hsubs'
        exact ⟨s, ⟨hs, hne, hcl⟩, rfl, rfl⟩

/-- C3 witness: a frame for topic `"t"` with payload `"X"` from client 1,
with client 2 subscribed to exactly `"t"`: the frame is retained and
forwarded verbatim to client 2 only. -/
theorem c3_wire_publish_witness :
    lookupAssoc (handlePublish ⟨[1, 2], [(asciiBytes "t", [2])], []⟩ 1
      ([0x30, 4, 0x00, 0x01] ++ asciiBytes "t" ++ [0x58])).1.retained
        (pubTopic ([0x30, 4, 0x00, 0x01] ++ asciiBytes "t" ++ [0x58])) =
      some (pubPayload ([0x30, 4, 0x00, 0x01] ++ asciiBytes "t" ++ [0x58])) ∧
    ((2 : Nat), [0x30, 4, 0x00, 0x01] ++ asciiBytes "t" ++ [0x58]) ∈
      (handlePublish ⟨[1, 2], [(asciiBytes "t", [2])], []⟩ 1
        ([0x30, 4, 0x00, 0x01] ++ asciiBytes "t" ++ [0x58])).2 := by
  have h := c3_wire_publish ⟨[1, 2], [(asciiBytes "t", [2])], []⟩ 1
    ([0x30, 4, 0x00, 0x01] ++ asciiBytes "t" ++ [0x58])
    (by decide) (by decide) (by decide) (by decide)
  exact ⟨h.1, (h.2.2.2 2 _).mpr (by decide)⟩

/-- C4 counterexample: a PUBLISH frame whose topic bytes are invalid UTF-8
makes `topic.decode('utf-8')` raise, but the exception is caught inside
`_handle_publish` itself: the session is NOT torn down — it stays in the
client registry and in its subscription lists, and the broker state is
entirely unchanged. -/
theorem c4_counterexample :
    validUtf8 (pubTopic c4BadFrame) = false ∧
    processPacket tcpC4State 7 c4BadFrame = (tcpC4State, []) ∧
    (7 : Nat) ∈ (processPacket tcpC4State 7 c4BadFrame).1.clients ∧
    (asciiBytes "t", [7]) ∈ (processPacket tcpC4State 7 c4BadFrame).1.subscriptions := by
  decide

/-- C4 (amended): a decode exception in `_handle_publish` or
`_handle_subscribe` is swallowed by the handler's own `try/except` — it
never terminates the broker process — and the offending session is left
untouched: the broker state (clients, subscriptions, retained store) is
unchanged and nothing is sent; the session continues to be served. -/
theorem c4_decode_failure_swallowed :
    (∀ (st : TcpState) (sender : Nat) (data : List Nat),
        4 < data.length → 4 + byte16 data 2 < data.length →
        (validUtf8 (pubTopic data) && validUtf8 (pubPayload data)) = false →
        handlePublish st sender data = (st, [])) ∧
    (∀ (st : TcpState) (sender : Nat) (data : List Nat),
        6 < data.length → 6 + byte16 data 4 < data.length →
        validUtf8 (subTopic data) = false →
        handleSubscribe st sender data = (st, [])) := by
  constructor
  · intro st sender data h4 hlen hbad
    simp only [pubTopic, pubPayload] at hbad
    simp [handlePublish, if_pos h4, if_pos hlen, hbad]
  · intro st sender data h6 hlen hbad
    simp only [subTopic] at hbad
    simp [handleSubscribe, if_pos h6, if_pos hlen, hbad]

/-- C4 witness: the two amended branches at concrete malformed frames. -/
theorem c4_decode_failure_swallowed_witness :
    handlePublish tcpC4State 7 c4BadFrame = (tcpC4State, []) ∧
    handleSubscribe tcpC4State 7 [0x82, 5, 0x00, 0x01, 0x00, 0x01, 0xFF, 0x00] =
      (tcpC4State, []) := by
  exact ⟨c4_decode_failure_swallowed.1 tcpC4State 7 c4BadFrame
      (by decide) (by decide) (by decide),
    c4_decode_failure_swallowed.2 tcpC4State 7 _
      (by decide) (by decide) (by decide)⟩

/-- C6: tearing down a connected session synchronously erases its socket
from the client registry and from every subscription list (the DISCONNECT
frame `0xE0`, end-of-stream and read failure all funnel into
`_disconnect_client`); afterwards no publish — server-side `publish` or a
forwarded client PUBLISH — delivers anything to that socket, and a publish
to its former topics still completes (both publish paths are total and
swallow per-socket send failures). Hypotheses: the client dict keys are
distinct (a Python dict guarantees this) and each subscription list holds
the socket at most once (the invariant `_handle_subscribe`'s `not in`
check maintains). -/
theorem c6_session_teardown (st : TcpState) (s : Nat)
    (hc : s ∈ st.clients) (hnd : st.clients.Nodup) (hs : subOnce st s) :
    (∀ b l, b / 16 % 16 = 14 →
        processPacket st s (b :: l) = (disconnectClient st s, [])) ∧
    s ∉ (disconnectClient st s).clients ∧
    (∀ e ∈ (disconnectClient st s).subscriptions, s ∉ e.2) ∧
    (∀ topicB payloadB x,
        x ∈ (serverPublish (disconnectClient st s) topicB payloadB).2.1 → x.1 ≠ s) ∧
    (∀ sender data x,
        x ∈ (handlePublish (disconnectClient st s) sender data).2 → x.1 ≠ s) := by
  have hd : disconnectClient st s =
      { clients := st.clients.erase s
        subscriptions := st.subscriptions.map
          (fun e => (e.1, if s ∈ e.2 then e.2.erase s else e.2))
        retained := st.retained } := by
    simp [disconnectClient, hc]
  have hnc : s ∉ (disconnectClient st s).clients := by
    rw [hd]
    exact hnd.not_mem_erase
  refine ⟨?_, hnc, ?_, ?_, ?_⟩
  · intro b l hb
    simp [processPacket, hb]
  · intro e he
    rw [hd] at he
    simp only [List.mem_map] at he
    obtain ⟨⟨t, l⟩, hmem, rfl⟩ := he
    by_cases hin : s ∈ l
    · have hcount : l.count s ≤ 1 := hs (t, l) hmem
      have h1 : 1 ≤ l.count s := List.one_le_count_iff.mpr hin
      have : (l.erase s).count s = 0 := by
        rw [List.count_erase_self]
        omega
      simp only [hin, if_true]
      exact List.count_eq_zero.mp this
    · simp only [if_neg hin]
      exact hin
  · intro topicB payloadB x hx hxs
    apply hnc
    have hmem := serverPublish_sends_clients _ topicB payloadB x hx
    rwa [hxs] at hmem
  · intro sender data x hx hxs
    apply hnc
    have hmem := handlePublish_sends_clients _ sender data x hx
    rwa [hxs] at hmem

/-- C6 witness: clients 3 and 4, both subscribed to `"t"`; after tearing
down session 3 its socket is gone from the registries and a publish to
`"t"` reaches only socket 4. -/
theorem c6_session_teardown_witness :
    (3 : Nat) ∉ (disconnectClient ⟨[3, 4], [(asciiBytes "t", [3, 4])], []⟩ 3).clients ∧
    (∀ e ∈ (disconnectClient ⟨[3, 4], [(asciiBytes "t", [3, 4])], []⟩ 3).subscriptions,
      (3 : Nat) ∉ e.2) := by
  have h := c6_session_teardown ⟨[3, 4], [(asciiBytes "t", [3, 4])], []⟩ 3
    (by decide) (by decide) (by unfold subOnce; decide)
  exact ⟨h.2.1, h.2.2.1⟩

/-- C5: with the fallback modules importable (as they are in this
repository), `start` tries wire broker, then remote broker, then
in-process broker, in that order; it stops at the first backend that
succeeds and reports success, and reports overall failure exactly when all
three backends failed. -/
theorem c5_fallback_chain (env : BackendEnv)
    (hemb : env.embeddedAvailable = true) :
    (tryTcpBroker env = true → serverStart env = (true, [.wire])) ∧
    (tryTcpBroker env = false → tryExternalBroker env = true →
      serverStart env = (true, [.wire, .remote])) ∧
    (tryTcpBroker env = false → tryExternalBroker env = false →
      serverStart env = (tryEmbeddedBroker env, [.wire, .remote, .inproc])) ∧
    ((serverStart env).1 = false ↔
      tryTcpBroker env = false ∧ tryExternalBroker env = false ∧
        tryEmbeddedBroker env = false) := by
  refine ⟨fun h1 => by simp [serverStart, h1],
    fun h1 h2 => by simp [serverStart, h1, h2],
    fun h1 h2 => by simp [serverStart, h1, h2, hemb], ?_⟩
  cases h1 : tryTcpBroker env <;> cases h2 : tryExternalBroker env <;>
    cases h3 : tryEmbeddedBroker env <;>
    simp [serverStart, h1, h2, h3, hemb]

/-- C5 witness: with the first two backends failing and the in-process
broker succeeding, `start` reports success having attempted all three in
order. -/
theorem c5_fallback_chain_witness :
    serverStart ⟨true, true, false, false, true⟩ =
      (true, [.wire, .remote, .inproc]) := by
  have h := c5_fallback_chain ⟨true, true, false, false, true⟩ rfl
  exact h.2.2.1 rfl rfl

/-- C7: an inbound message on the incorrect-elements configuration topic
whose payload `int()` rejects leaves the whole configuration exactly as it
was — in particular both `incorrect_elements_count` and `metal_grade` are
unchanged (the exception from `int(payload)` is raised before any
assignment, caught by `on_message`'s outer `try/except`, and logged). -/
theorem c7_config_parse_failure (st : ServerConfig) (payload : String)
    (hbad : pyInt payload = none) :
    on_message st topicConfigIncorrectElements payload = st ∧
    (on_message st topicConfigIncorrectElements payload).incorrect_elements_count =
      st.incorrect_elements_count ∧
    (on_message st topicConfigIncorrectElements payload).metal_grade =
      st.metal_grade := by
  have h : on_message st topicConfigIncorrectElements payload = st := by
    unfold on_message
    rw [if_neg (by decide), if_pos rfl, hbad]
  exact ⟨h, by rw [h], by rw [h]⟩

/-- C7 witness: payload `"2x"` is not a decimal integer string; the stored
configuration is untouched. -/
theorem c7_config_parse_failure_witness :
    on_message ⟨"SG-Iron", 2⟩ topicConfigIncorrectElements "2x" =
      (⟨"SG-Iron", 2⟩ : ServerConfig) :=
  (c7_config_parse_failure ⟨"SG-Iron", 2⟩ "2x" (by decide)).1

/-- Batteries' executable `Rat.floor` agrees with the floor of the
`FloorRing` instance. -/
theorem ratFloor_eq_intFloor (q : ℚ) : Rat.floor q = ⌊q⌋ :=
  (Rat.floor_def' q).trans Rat.floor_def.symm

/-- C8: a grade with no composition profile in the document store makes
`simulate_reading` fail synchronously with the grade-lookup `ValueError`
(the spec's `NotFoundError`): the error value is returned to the caller and
no reading record, partial or complete, exists in the result. -/
theorem c8_unknown_grade (db : List MgDoc) (now grade : String) (k : Int)
    (g : RGen)
    (hng : get_metal_grade_spec db grade = Except.error (.notFound grade)) :
    simulate_reading db now grade k g = Except.error (.notFound grade) := by
  unfold simulate_reading
  rw [hng]
  rfl

/-- C8 witness: `"Unobtainium"` is not in a store that only knows
`"SG-Iron"`. -/
theorem c8_unknown_grade_witness :
    simulate_reading [⟨"SG-Iron", some [("C", 16/5, 18/5)]⟩] "t"
      "Unobtainium" 2 [] = Except.error (.notFound "Unobtainium") :=
  c8_unknown_grade _ _ _ _ _ rfl

/-- Each step of `sampleLoop` picks an index inside the pool. -/
theorem sampleIdx_lt (u : ℚ) (n : Nat) (hn : 0 < n) :
    min (Int.toNat (Rat.floor (clamp01 u * (n : ℚ)))) (n - 1) < n :=
  lt_of_le_of_lt (Nat.min_le_right _ _) (Nat.sub_lt hn Nat.one_pos)

/-- `sampleLoop` returns exactly `k` elements when the pool is large
enough. -/
theorem sampleLoop_length (k : Nat) :
    ∀ (pool : List String) (g : RGen), k ≤ pool.length →
      (sampleLoop k pool g).1.length = k := by
  induction k with
  | zero => intro pool g _; rfl
  | succ k ih =>
      intro pool g h
      match pool with
      | [] => simp at h
      | p0 :: rest =>
          simp only [sampleLoop]
          have hi : min (Int.toNat (Rat.floor (clamp01 (nextDraw g).1 *
              (((p0 :: rest).length : ℚ))))) ((p0 :: rest).length - 1) <
              (p0 :: rest).length :=
            sampleIdx_lt _ _ (Nat.succ_pos _)
          have hk : k ≤ ((p0 :: rest).eraseIdx
              (min (Int.toNat (Rat.floor (clamp01 (nextDraw g).1 *
                (((p0 :: rest).length : ℚ))))) ((p0 :: rest).length - 1))).length := by
            rw [List.length_eraseIdx_of_lt hi]
            simpa using Nat.le_of_succ_le_succ h
          exact congrArg (fun n => n + 1) (ih _ _ hk)

/-- Everything `sampleLoop` returns comes from the pool. -/
theorem sampleLoop_subset (k : Nat) :
    ∀ (pool : List String) (g : RGen) (x : String),
      x ∈ (sampleLoop k pool g).1 → x ∈ pool := by
  induction k with
  | zero => intro pool g x hx; simp [sampleLoop] at hx
  | succ k ih =>
      intro pool g x hx
      match pool with
      | [] => simp [sampleLoop] at hx
      | p0 :: rest =>
          simp only [sampleLoop, List.mem_cons] at hx
          have hi : min (Int.toNat (Rat.floor (clamp01 (nextDraw g).1 *
              (((p0 :: rest).length : ℚ))))) ((p0 :: rest).length - 1) <
              (p0 :: rest).length :=
            sampleIdx_lt _ _ (Nat.succ_pos _)
          have hgd : (p0 :: rest).getD
              (min (Int.toNat (Rat.floor (clamp01 (nextDraw g).1 *
                (((p0 :: rest).length : ℚ))))) ((p0 :: rest).length - 1)) p0 =
              (p0 :: rest).get ⟨_, hi⟩ := by
            rw [List.getD_eq_getElem?_getD, List.getElem?_eq_getElem hi]
            rfl
          rcases hx with hx | hx
          · rw [hx, hgd]
            exact List.get_mem _ _ _
          · exact List.eraseIdx_subset _ _ (ih _ _ _ hx)

/-- The element removed by `eraseIdx` does not reappear when the list has
no duplicates. -/
theorem get_not_mem_eraseIdx {l : List String} (hnd : l.Nodup) (i : Nat)
    (hi : i < l.length) : l.get ⟨i, hi⟩ ∉ l.eraseIdx i := by
  intro hmem
  rw [List.mem_eraseIdx_iff_get?] at hmem
  obtain ⟨j, hji, hj⟩ := hmem
  rw [List.get?_eq_some] at hj
  obtain ⟨hjl, hjv⟩ := hj
  have hij : (⟨j, hjl⟩ : Fin l.length) = ⟨i, hi⟩ := hnd.get_inj_iff.mp hjv
  exact hji (congrArg Fin.val hij)

/-- `sampleLoop` returns distinct elements of a duplicate-free pool. -/
theorem sampleLoop_nodup (k : Nat) :
    ∀ (pool : List String) (g : RGen), pool.Nodup →
      (sampleLoop k pool g).1.Nodup := by
  induction k with
  | zero => intro pool g _; simp [sampleLoop]
  | succ k ih =>
      intro pool g hnd
      match pool with
      | [] => simp [sampleLoop]
      | p0 :: rest =>
          simp only [sampleLoop, List.nodup_cons]
          have hi : min (Int.toNat (Rat.floor (clamp01 (nextDraw g).1 *
              (((p0 :: rest).length : ℚ))))) ((p0 :: rest).length - 1) <
              (p0 :: rest).length :=
            sampleIdx_lt _ _ (Nat.succ_pos _)
          have hgd : (p0 :: rest).getD
              (min (Int.toNat (Rat.floor (clamp01 (nextDraw g).1 *
                (((p0 :: rest).length : ℚ))))) ((p0 :: rest).length - 1)) p0 =
              (p0 :: rest).get ⟨_, hi⟩ := by
            rw [List.getD_eq_getElem?_getD, List.getElem?_eq_getElem hi]
            rfl
          refine ⟨fun hmem => ?_, ih _ _ (hnd.eraseIdx _)⟩
          rw [hgd] at hmem
          exact get_not_mem_eraseIdx hnd _ hi (sampleLoop_subset k _ _ _ hmem)

/-- C10 (amended): with a known `n`-element profile, `simulate_reading`
raises the `random.sample` `ValueError` — before any reading record is
built — exactly when the count is negative or exceeds `n`; for
`0 ≤ count ≤ n` the call succeeds, and the sampled "incorrect" list it
feeds to the out-of-range generator consists of exactly `count` distinct
elements of the profile. (The original claim's stronger reading — that the
final record has exactly `count` out-of-range values — fails: the
within-range generator adds ±0.005 noise that can leave a "correct"
element slightly outside its range, and the anomaly spike can move a
sampled element back inside; see the counterexample.) -/
theorem c10_sample_bounds (db : List MgDoc) (now grade : String) (k : Int)
    (g : RGen) (profile : List (String × ℚ × ℚ))
    (hp : get_metal_grade_spec db grade = Except.ok profile) :
    ((k < 0 ∨ (profile.length : Int) < k) →
        simulate_reading db now grade k g = Except.error .sampleError) ∧
    (0 ≤ k → k ≤ (profile.length : Int) →
      (∃ r : Reading, simulate_reading db now grade k g = Except.ok r ∧
        r.timestamp = now) ∧
      (sampleLoop k.toNat (profile.map (·.1)) g).1.length = k.toNat ∧
      ((profile.map (·.1)).Nodup →
        (sampleLoop k.toNat (profile.map (·.1)) g).1.Nodup) ∧
      (∀ x ∈ (sampleLoop k.toNat (profile.map (·.1)) g).1,
        x ∈ profile.map (·.1))) := by
  constructor
  · intro hbad
    have hps : pySample (profile.map (·.1)) k g = Except.error .sampleError := by
      unfold pySample
      rw [if_pos]
      simpa using hbad
    simp only [simulate_reading, hp, Bind.bind, Except.bind, hps]
  · intro h0 hn
    have hps : pySample (profile.map (·.1)) k g =
        Except.ok (sampleLoop k.toNat (profile.map (·.1)) g) := by
      unfold pySample
      rw [if_neg]
      simp only [List.length_map]
      omega
    have hkn : k.toNat ≤ (profile.map (·.1)).length := by
      simp only [List.length_map]
      omega
    refine ⟨?_, sampleLoop_length k.toNat _ g hkn,
      fun hnd => sampleLoop_nodup k.toNat _ g hnd,
      fun x hx => sampleLoop_subset k.toNat _ g x hx⟩
    have hred : ∃ vals, simulate_reading db now grade k g =
        Except.ok ⟨vals, now⟩ := by
      simp only [simulate_reading, hp, Bind.bind, Except.bind, hps, pure,
        Except.pure]
      exact ⟨_, rfl⟩
    obtain ⟨vals, hv⟩ := hred
    exact ⟨⟨vals, now⟩, hv, rfl⟩

/-- C10 witness: a one-element profile; count 2 raises the sampling
`ValueError`, count 1 succeeds. -/
theorem c10_sample_bounds_witness :
    simulate_reading [⟨"G", some [("Si", 1/2, 7/10)]⟩] "t" "G" 2 [] =
      Except.error .sampleError ∧
    (∃ r : Reading, simulate_reading [⟨"G", some [("Si", 1/2, 7/10)]⟩]
      "t" "G" 1 [] = Except.ok r ∧ r.timestamp = "t") := by
  have h2 := c10_sample_bounds [⟨"G", some [("Si", 1/2, 7/10)]⟩] "t" "G" 2 []
    [("Si", 1/2, 7/10)] rfl
  have h1 := c10_sample_bounds [⟨"G", some [("Si", 1/2, 7/10)]⟩] "t" "G" 1 []
    [("Si", 1/2, 7/10)] rfl
  exact ⟨h2.1 (by decide), (h1.2 (by decide) (by decide)).1⟩

/-- C10 counterexample: grade `"G"` with the single element `"Si"` ranged
`[0.5, 0.7]` and count 0: the within-range path draws 0.5, the noise draw
subtracts 0.005, and the recorded value 0.495 lies below the minimum — so
a successful call with count 0 produced one out-of-range element, not
exactly zero. -/
theorem c10_counterexample :
    simulate_reading [⟨"G", some [("Si", 1/2, 7/10)]⟩] "t" "G" 0 [0, 0] =
      Except.ok ⟨[("Si", 99/200)], "t"⟩ ∧ ((99 : ℚ)/200 < 1/2) := by
  constructor
  · norm_num [simulate_reading, get_metal_grade_spec, pySample, sampleLoop,
      elementValue, generate_within_range, inject_noise, pyUniform, nextDraw,
      clamp01, roundQ4, roundHalfEven, anomalyElements, ratFloor_eq_intFloor,
      List.find?, Except.bind, bind, pure, Except.pure]
  · norm_num

end MetalliSense
